import Mathlib

/-!
Verification of the Pandeia tutorial notebook helpers for the Roman WFI.

The notebook defines four client-side routines over an opaque external
exposure-time calculator (the Pandeia engine, not part of this repository):

  * compute_mag   — sweep integer magnitudes, recording the achieved SNR;
  * _mag2sn_      — invert (SNR → magnitude) by 1-D interpolation;
  * _nexp2sn_     — squared deviation objective for the exposure optimizer;
  * compute_nexp  — find the exposure count reaching a target SNR;
  * a saturation back-off loop scanning resultant counts 10 down to 1.

The external evaluation call perform_calculation is modelled as an arbitrary
function from configurations to result records and is a parameter of every
routine; claims quantify over it.  Likewise the external scipy routines
minimize_scalar and interp1d, which are not part of this repository, are
modelled from their documented contracts as stated in the spec.
-/

/-- The scalar-metrics section of a Pandeia result record: the fields this
repository reads (report.scalar.sn, report.scalar.total_exposure_time,
report.scalar.sat_nresultants). -/
structure ScalarMetrics where
  sn : ℚ
  total_exposure_time : ℚ
  sat_nresultants : ℤ
deriving DecidableEq

/-- A Pandeia result record: the scalar metrics plus the two saturation
entries of the warnings mapping that the notebook inspects
(warnings.get of the partial-saturation key, here psat, and of the
full-saturation key, here fsat; dict.get returns None when absent). -/
structure Report where
  scalar : ScalarMetrics
  psat : Option String
  fsat : Option String
deriving DecidableEq

/-- The Pandeia configuration record: the fields this repository sets.
String and numeric values exactly as the notebook assigns them. -/
structure Calc where
  filter : String
  detector : String
  nexp : ℤ
  nresultants : ℤ
  ma_table_name : String
  norm_flux : ℚ
  norm_fluxunit : String
  norm_waveunit : String
  norm_type : String
  bandpass : String
  sed_type : String
  sed_key : String
deriving DecidableEq

/-- Modelled from the spec and the notebook prose: build_default_calc
("roman", "wfi", "imaging") is an external Pandeia entry point, not part of
this repository.  The notebook states the default is a single point source
on detector SCA01, one exposure, the F158 filter, the c2a_img_hlwas MA
table with no truncation (nresultants = -1), and a flat spectral
distribution.  Fields whose default the notebook does not state carry
neutral placeholder values; no claim depends on them, every routine under
verification either overwrites them or leaves them untouched. -/
def build_default_calc : Calc :=
  { filter := "f158"
    detector := "sca01"
    nexp := 1
    nresultants := -1
    ma_table_name := "c2a_img_hlwas"
    norm_flux := 0
    norm_fluxunit := "njy"
    norm_waveunit := "um"
    norm_type := "at_lambda"
    bandpass := ""
    sed_type := "flat"
    sed_key := "" }

/-- The external evaluation call: an arbitrary function from configurations
to result records.  perform_calculation itself lives in the Pandeia engine,
outside this repository, so every routine takes it as a parameter. -/
abbrev PerformCalculation := Calc → Report

/-- np.arange lo hi1 with step 1 on integer endpoints: the integers
lo, lo+1, ..., hi1-1 (empty when hi1 ≤ lo). -/
def arange (lo hi1 : ℤ) : List ℤ :=
  (List.range (hi1 - lo).toNat).map (fun i : ℕ => lo + (i : ℤ))

/-- The configuration compute_mag builds before its sweep loop: the default
calculation with abmag/um normalization units, the requested exposure count
and the requested filter (source lines setting norm_fluxunit, norm_waveunit,
nexp and filter). -/
def magBaseCalc (filt : String) (nexp : ℤ) : Calc :=
  { build_default_calc with
      norm_fluxunit := "abmag"
      norm_waveunit := "um"
      nexp := nexp
      filter := filt }

/-- The body of the compute_mag sweep: for each magnitude in the list, set
norm_flux to it, evaluate, and append the achieved SNR.  Returns the SNR
list together with the exact sequence of configurations passed to the
external evaluation call, in order (the evaluation trace). -/
def computeMagLoop (pc : PerformCalculation) (cfg : Calc) :
    List ℤ → List ℚ × List Calc
  | [] => ([], [])
  | m :: rest =>
    let c := { cfg with norm_flux := (m : ℚ) }
    let report := pc c
    let out := computeMagLoop pc cfg rest
    (report.scalar.sn :: out.1, c :: out.2)

/-- compute_mag filt nexp bracket: sweep the integer magnitudes
arange bracket.1 (bracket.2 + 1), evaluating once per magnitude, and return
(mag_range, computed_snrs) plus the evaluation trace. -/
def compute_mag (pc : PerformCalculation) (filt : String) (nexp : ℤ)
    (bracket : ℤ × ℤ) : List ℤ × List ℚ × List Calc :=
  let cfg := magBaseCalc filt nexp
  let mag_range := arange bracket.1 (bracket.2 + 1)
  let out := computeMagLoop pc cfg mag_range
  (mag_range, out.1, out.2)

/-- Linear interpolation over a list of (x, y) samples assumed sorted by x:
walk the segments and interpolate inside the first segment whose right
endpoint reaches the query.  Only queried inside the sampled x-range. -/
def interpSorted : List (ℚ × ℚ) → ℚ → ℚ
  | [], _ => 0
  | [p], _ => p.2
  | p :: q :: rest, t =>
    if t ≤ q.1 then p.2 + (q.2 - p.2) * (t - p.1) / (q.1 - p.1)
    else interpSorted (q :: rest) t

/-- Modelled from the spec: scipy.interpolate.interp1d is not part of this
repository.  Per the spec (§4.1), a query outside the range of the sample
x-values is an out-of-domain error that is surfaced (scipy's default
bounds_error raises ValueError below the minimum or above the maximum
sample); an in-range query returns the value linearly interpolated over the
samples sorted by x. -/
def interp1d (xs ys : List ℚ) (t : ℚ) : Except String ℚ :=
  match xs.min?, xs.max? with
  | some lo, some hi =>
    if t < lo ∨ hi < t then
      Except.error "A value in x_new is out of the interpolation range."
    else
      Except.ok (interpSorted ((xs.zip ys).insertionSort (fun a b => a.1 ≤ b.1)) t)
  | _, _ => Except.error "x and y arrays must have at least 2 entries"

/-- The notebook helper inverting the magnitude sweep: build an interpolant
over x = computed_snrs, y = mag_range, and evaluate it at the target SNR. -/
def _mag2sn_ (mag_range : List ℤ) (computed_snrs : List ℚ)
    (sntarget : ℚ) : Except String ℚ :=
  interp1d computed_snrs (mag_range.map (fun m : ℤ => (m : ℚ))) sntarget

/-- The back-off loop's per-level condition: the evaluation at resultant
count r shows neither a partial-saturation nor a full-saturation warning. -/
abbrev cleanAt (pc : PerformCalculation) (cfg : Calc) (r : ℤ) : Prop :=
  (pc { cfg with nresultants := r }).psat = none ∧
  (pc { cfg with nresultants := r }).fsat = none

/-- The message the back-off loop prints when it finds a clean level. -/
def satMessage (r : ℤ) : String :=
  "No saturation happens with resultant " ++ toString r

/-- Outcome of the saturation back-off loop: the nresultant variable (none
models the source's never-assigned variable when no clean level is found),
the lines printed, and the resultant counts evaluated, in order. -/
structure SatScanOut where
  nresultant : Option ℤ
  printed : List String
  visited : List ℤ
deriving DecidableEq

/-- The saturation back-off loop body, on the remaining fuel: with fuel
n + 1 it visits resultant count n + 1, evaluates with nresultants set to
it, stops there when both saturation warnings are absent, and otherwise
continues downward.  Fuel 10 reproduces the source loop
for n in reversed(range(10)) with resultant = n + 1, i.e. counts
10, 9, ..., 1. -/
def satScanFrom (pc : PerformCalculation) (cfg : Calc) : ℕ → SatScanOut
  | 0 => ⟨none, [], []⟩
  | n + 1 =>
    if (pc { cfg with nresultants := (n : ℤ) + 1 }).psat = none ∧
        (pc { cfg with nresultants := (n : ℤ) + 1 }).fsat = none then
      ⟨some ((n : ℤ) + 1), [satMessage ((n : ℤ) + 1)], [(n : ℤ) + 1]⟩
    else
      ⟨(satScanFrom pc cfg n).nresultant, (satScanFrom pc cfg n).printed,
        ((n : ℤ) + 1) :: (satScanFrom pc cfg n).visited⟩

/-- The notebook's saturation back-off scan over resultant counts 10
down to 1, on a given starting configuration. -/
def saturationBackoff (pc : PerformCalculation) (cfg : Calc) : SatScanOut :=
  satScanFrom pc cfg 10

/-- The descending integer list hi, hi - 1, ..., lo (empty when hi < lo). -/
def descRange (hi lo : ℤ) : List ℤ :=
  (List.range (hi + 1 - lo).toNat).map (fun i : ℕ => hi - (i : ℤ))

/-- A result record with no saturation warnings (used in witnesses). -/
def cleanReport : Report := ⟨⟨10, 100, 5⟩, none, none⟩

/-- A result record with a partial-saturation warning (used in witnesses). -/
def satReport : Report := ⟨⟨10, 100, 5⟩, some "Saturation", none⟩

/-- A detector response that saturates exactly above resultant count 5
(less truncation means more saturation), used in witnesses. -/
def pcSatAbove5 : PerformCalculation := fun c =>
  if c.nresultants ≤ 5 then cleanReport else satReport

/-- A detector response that saturates at every resultant count,
used in witnesses. -/
def pcAlwaysSat : PerformCalculation := fun _ => satReport

/-- Python's int() conversion on a rational: truncation toward zero. -/
def pyInt (q : ℚ) : ℤ := if 0 ≤ q then ⌊q⌋ else ⌈q⌉

/-- The configuration compute_nexp builds before its first evaluation: the
default calculation with the source magnitude (abmag, um), the requested
filter, exposure count 1 and the fixed truncation of 8 resultants (source
lines setting norm_flux, norm_fluxunit, norm_waveunit, filter, nexp = 1 and
nresultants = 8). -/
def nexpInitCalc (filt : String) (mag : ℚ) : Calc :=
  { build_default_calc with
      norm_flux := mag
      norm_fluxunit := "abmag"
      norm_waveunit := "um"
      filter := filt
      nexp := 1
      nresultants := 8 }

/-- The notebook's optimizer objective: set the detector nexp to int(nexp),
evaluate, and return the squared deviation of the achieved SNR from the
target. -/
def _nexp2sn_ (pc : PerformCalculation) (nexp : ℚ) (cfg : Calc)
    (sntarget : ℚ) : ℚ :=
  (sntarget - (pc { cfg with nexp := pyInt nexp }).scalar.sn) ^ 2

/-- The objective compute_nexp hands to the minimizer: _nexp2sn_ with the
prepared configuration and the target SNR as the extra arguments. -/
def nexpObjective (pc : PerformCalculation) (filt : String) (sn mag : ℚ) :
    ℚ → ℚ :=
  fun t => _nexp2sn_ pc t (nexpInitCalc filt mag) sn

/-- Modelled from the spec: scipy.optimize.minimize_scalar with
method="bounded" is not part of this repository.  Per the spec (§4.2) it is
a derivative-free bounded scalar minimization that evaluates the objective
at a sequence of trial points and returns a candidate solution inside the
given bounds.  An outcome is the returned solution x together with the
trial points at which the objective was evaluated, both otherwise
arbitrary; theorems needing the bounded guarantee (x inside the bracket)
take it as a hypothesis. -/
structure MinimizeResult where
  x : ℚ
  trials : List ℚ

/-- A bounded scalar minimizer: consumes the objective and the bracket. -/
abbrev MinimizeScalar := (ℚ → ℚ) → ℚ × ℚ → MinimizeResult

/-- The outcome of compute_nexp: the returned triple (nexp, report,
exptime) of the source, plus, for stating claims, the full sequence of
configurations passed to perform_calculation in order (the initial count-1
check, then the minimizer's trial evaluations, then the final
re-evaluation) and the branch provenance: searched is true when the
minimization branch ran, incremented when the one-sided +1 correction
fired. -/
structure NexpOutcome where
  nexp : ℤ
  report : Report
  exptime : ℚ
  evalTrace : List Calc
  searched : Bool
  incremented : Bool

/-- compute_nexp filt sn mag bracket, translated from the source: evaluate
at exposure count 1 with truncation 8; if the SNR strictly exceeds the
target, answer 1; otherwise minimize the squared SNR deviation over the
bracket, truncate the solution to an integer, re-evaluate there, and add 1
to the count when the re-evaluated SNR still falls short (without
re-evaluating again).  The exposure time is read from the last report.
The xtol argument only tunes the external minimizer and is absorbed into
the minimizer model. -/
def compute_nexp (pc : PerformCalculation) (ms : MinimizeScalar)
    (filt : String) (sn mag : ℚ) (bracket : ℚ × ℚ) : NexpOutcome :=
  let cfg := nexpInitCalc filt mag
  let report1 := pc cfg
  if sn < report1.scalar.sn then
    ⟨1, report1, report1.scalar.total_exposure_time, [cfg], false, false⟩
  else
    let res := ms (nexpObjective pc filt sn mag) bracket
    let m := pyInt res.x
    let cfg2 : Calc := { cfg with nexp := m }
    let report2 := pc cfg2
    let trace := cfg :: res.trials.map (fun t => { cfg with nexp := pyInt t })
      ++ [cfg2]
    if report2.scalar.sn < sn then
      ⟨m + 1, report2, report2.scalar.total_exposure_time, trace, true, true⟩
    else
      ⟨m, report2, report2.scalar.total_exposure_time, trace, true, false⟩

/-- A scoring function with constant SNR 6 (used in witnesses). -/
def pcConstSN6 : PerformCalculation := fun _ => ⟨⟨6, 120, 0⟩, none, none⟩

/-- A scoring function with constant SNR 5 (used in counterexamples). -/
def pcConstSN5 : PerformCalculation := fun _ => ⟨⟨5, 120, 0⟩, none, none⟩

/-- A scoring function whose SNR and total exposure time both equal the
exposure count. -/
def pcLinear : PerformCalculation := fun c =>
  ⟨⟨(c.nexp : ℚ), (c.nexp : ℚ), 0⟩, none, none⟩

/-- A scoring function whose SNR is capped at 10 for every exposure count
(an infeasible detector response for any target above 10). -/
def pcCap10 : PerformCalculation := fun c => ⟨⟨10, (c.nexp : ℚ), 0⟩, none, none⟩

/-- A minimizer stub returning solution 500 after a single trial at 500. -/
def msConst500 : MinimizeScalar := fun _ _ => ⟨500, [500]⟩

/-- A minimizer stub returning solution 9 after trials at 2 and 9. -/
def msConst9 : MinimizeScalar := fun _ _ => ⟨9, [2, 9]⟩

theorem computeMagLoop_fst (pc : PerformCalculation) (cfg : Calc) :
    ∀ ms : List ℤ, (computeMagLoop pc cfg ms).1 =
      ms.map (fun m => (pc { cfg with norm_flux := (m : ℚ) }).scalar.sn)
  | [] => rfl
  | m :: rest => by
    simp [computeMagLoop, computeMagLoop_fst pc cfg rest]

theorem computeMagLoop_snd (pc : PerformCalculation) (cfg : Calc) :
    ∀ ms : List ℤ, (computeMagLoop pc cfg ms).2 =
      ms.map (fun m => { cfg with norm_flux := (m : ℚ) })
  | [] => rfl
  | m :: rest => by
    simp [computeMagLoop, computeMagLoop_snd pc cfg rest]

theorem arange_length (lo hi1 : ℤ) : (arange lo hi1).length = (hi1 - lo).toNat := by
  unfold arange
  rw [List.length_map, List.length_range]

theorem arange_get (lo hi1 : ℤ) (i : ℕ) (h : i < (arange lo hi1).length) :
    (arange lo hi1).get ⟨i, h⟩ = lo + (i : ℤ) := by
  unfold arange at h ⊢
  simp only [List.get_eq_getElem, List.getElem_map, List.getElem_range]

/-- C6: for every non-decreasing bracket (lo, hi), compute_mag returns the
magnitudes lo, lo+1, ..., hi in order; the SNR list pairs them one-to-one,
in order, with the achieved SNR of the evaluation at that magnitude; and the
external scoring function is evaluated exactly once per magnitude, in that
order (the evaluation trace is exactly the per-magnitude configurations). -/
theorem compute_mag_sweep (pc : PerformCalculation) (filt : String)
    (nexp : ℤ) (lo hi : ℤ) (h : lo ≤ hi) :
    (compute_mag pc filt nexp (lo, hi)).1.length = (hi - lo).toNat + 1 ∧
    (∀ i (hi2 : i < (compute_mag pc filt nexp (lo, hi)).1.length),
      (compute_mag pc filt nexp (lo, hi)).1.get ⟨i, hi2⟩ = lo + (i : ℤ)) ∧
    (compute_mag pc filt nexp (lo, hi)).2.1 =
      (compute_mag pc filt nexp (lo, hi)).1.map
      (fun m => (pc { magBaseCalc filt nexp with norm_flux := (m : ℚ) }).scalar.sn) ∧
    (compute_mag pc filt nexp (lo, hi)).2.2 =
      (compute_mag pc filt nexp (lo, hi)).1.map
      (fun m => { magBaseCalc filt nexp with norm_flux := (m : ℚ) }) := by
  refine ⟨?_, ?_, ?_, ?_⟩
  · show (arange lo (hi + 1)).length = (hi - lo).toNat + 1
    rw [arange_length]
    omega
  · intro i hi2
    exact arange_get lo (hi + 1) i hi2
  · exact computeMagLoop_fst pc (magBaseCalc filt nexp) (arange lo (hi + 1))
  · exact computeMagLoop_snd pc (magBaseCalc filt nexp) (arange lo (hi + 1))

/-- C6 witness. -/
theorem compute_mag_sweep_witness :
    (18 : ℤ) ≤ 30 ∧
    ((compute_mag (fun _ => ⟨⟨1, 2, 3⟩, none, none⟩) "f129" 10 (18, 30)).1.length
      = 13) := by
  refine ⟨by decide, ?_⟩
  have h := compute_mag_sweep (fun _ => ⟨⟨1, 2, 3⟩, none, none⟩) "f129" 10 18 30
    (by decide)
  have h1 := h.1
  omega

/-- C7: calling the SNR-to-magnitude interpolation with a target SNR outside
the range of the sampled achieved-SNR values surfaces an out-of-domain
error; no extrapolated or approximated magnitude is returned. -/
theorem mag2sn_out_of_domain (mag_range : List ℤ) (computed_snrs : List ℚ)
    (sntarget lo hi : ℚ) (hlo : computed_snrs.min? = some lo)
    (hhi : computed_snrs.max? = some hi)
    (hout : sntarget < lo ∨ hi < sntarget) :
    ∃ e, _mag2sn_ mag_range computed_snrs sntarget = Except.error e := by
  unfold _mag2sn_ interp1d
  rw [hlo, hhi]
  exact ⟨_, if_pos hout⟩

/-- C7 witness: sampled SNRs 1, 2, 3, target 10 is above the maximum. -/
theorem mag2sn_out_of_domain_witness :
    ∃ e, _mag2sn_ [18, 19, 20] [1, 2, 3] 10 = Except.error e :=
  mag2sn_out_of_domain [18, 19, 20] [1, 2, 3] 10 1 3 (by decide) (by decide)
    (Or.inr (by norm_num))

theorem descRange_self (hi : ℤ) : descRange hi hi = [hi] := by
  unfold descRange
  have h : (hi + 1 - hi).toNat = 1 := by omega
  rw [h]
  simp [List.range_succ]

theorem descRange_cons (hi lo : ℤ) (h : lo ≤ hi) :
    descRange hi lo = hi :: descRange (hi - 1) lo := by
  unfold descRange
  have hk : (hi + 1 - lo).toNat = (hi - 1 + 1 - lo).toNat + 1 := by omega
  rw [hk, List.range_succ_eq_map, List.map_cons, List.map_map]
  simp only [Nat.cast_zero, sub_zero]
  have hfun : ((fun i : ℕ => hi - (i : ℤ)) ∘ Nat.succ)
      = (fun i : ℕ => hi - 1 - (i : ℤ)) := by
    funext i
    simp only [Function.comp_apply]
    push_cast
    ring
  rw [hfun]

theorem satScanFrom_some (pc : PerformCalculation) (cfg : Calc) :
    ∀ (n : ℕ) (r : ℤ), (satScanFrom pc cfg n).nresultant = some r →
      1 ≤ r ∧ r ≤ (n : ℤ) ∧ cleanAt pc cfg r ∧
      (∀ v : ℤ, r < v → v ≤ (n : ℤ) → ¬ cleanAt pc cfg v) ∧
      (satScanFrom pc cfg n).printed = [satMessage r] ∧
      (satScanFrom pc cfg n).visited = descRange (n : ℤ) r := by
  intro n
  induction n with
  | zero =>
    intro r hr
    simp [satScanFrom] at hr
  | succ n ih =>
    intro r hr
    by_cases hc : (pc { cfg with nresultants := (n : ℤ) + 1 }).psat = none ∧
        (pc { cfg with nresultants := (n : ℤ) + 1 }).fsat = none
    · rw [satScanFrom, if_pos hc] at hr
      have hr2 : r = (n : ℤ) + 1 := by
        simpa using hr.symm
      subst hr2
      refine ⟨by omega, by push_cast; omega, hc, ?_, ?_, ?_⟩
      · intro v h1 h2
        push_cast at h2
        omega
      · rw [satScanFrom, if_pos hc]
      · rw [satScanFrom, if_pos hc]
        show [(n : ℤ) + 1] = descRange (((n + 1 : ℕ)) : ℤ) ((n : ℤ) + 1)
        have hcast : (((n + 1 : ℕ)) : ℤ) = (n : ℤ) + 1 := by push_cast; ring
        rw [hcast, descRange_self]
    · rw [satScanFrom, if_neg hc] at hr
      have hrec := ih r hr
      obtain ⟨h1, h2, h3, h4, h5, h6⟩ := hrec
      refine ⟨h1, by push_cast; omega, h3, ?_, ?_, ?_⟩
      · intro v hv1 hv2
        by_cases hvn : v ≤ (n : ℤ)
        · exact h4 v hv1 hvn
        · have hveq : v = (n : ℤ) + 1 := by push_cast at hv2; omega
          rw [hveq]
          exact hc
      · rw [satScanFrom, if_neg hc]
        exact h5
      · rw [satScanFrom, if_neg hc]
        show ((n : ℤ) + 1) :: (satScanFrom pc cfg n).visited
          = descRange (((n + 1 : ℕ)) : ℤ) r
        have hcast : (((n + 1 : ℕ)) : ℤ) = (n : ℤ) + 1 := by push_cast; ring
        rw [hcast, h6, descRange_cons ((n : ℤ) + 1) r (by omega)]
        congr 1
        have h7 : (n : ℤ) + 1 - 1 = (n : ℤ) := by ring
        rw [h7]

theorem satScanFrom_allSat (pc : PerformCalculation) (cfg : Calc) :
    ∀ n : ℕ, (∀ v : ℤ, 1 ≤ v → v ≤ (n : ℤ) → ¬ cleanAt pc cfg v) →
      satScanFrom pc cfg n = ⟨none, [], descRange (n : ℤ) 1⟩ := by
  intro n
  induction n with
  | zero =>
    intro h
    show (⟨none, [], []⟩ : SatScanOut) = ⟨none, [], descRange ((0 : ℕ) : ℤ) 1⟩
    congr 1
  | succ n ih =>
    intro h
    have hc : ¬ ((pc { cfg with nresultants := (n : ℤ) + 1 }).psat = none ∧
        (pc { cfg with nresultants := (n : ℤ) + 1 }).fsat = none) :=
      h ((n : ℤ) + 1) (by omega) (by push_cast; omega)
    rw [satScanFrom, if_neg hc]
    have hrec := ih (fun v hv1 hv2 => h v hv1 (by push_cast at hv2 ⊢; omega))
    rw [hrec]
    show (⟨none, [], ((n : ℤ) + 1) :: descRange (n : ℤ) 1⟩ : SatScanOut)
      = ⟨none, [], descRange ((n : ℕ) + 1 : ℤ) 1⟩
    congr 1
    rw [descRange_cons ((n : ℤ) + 1) 1 (by omega)]
    congr 1
    have : (n : ℤ) + 1 - 1 = (n : ℤ) := by ring
    rw [this]

/-- C4: for a detector response in which less truncation implies more
saturation (a clean level stays clean under further truncation), when the
back-off scan reports a resultant count r, then r is free of both
saturation warnings, every level above it up to 10 carries a saturation
warning (hence r is the largest clean resultant count in range), and the
scan visited exactly the levels 10, 9, ..., r, in that order. -/
theorem saturationBackoff_largest_clean (pc : PerformCalculation) (cfg : Calc)
    (hmono : ∀ a b : ℤ, a ≤ b → cleanAt pc cfg b → cleanAt pc cfg a)
    (r : ℤ) (hr : (saturationBackoff pc cfg).nresultant = some r) :
    1 ≤ r ∧ r ≤ 10 ∧ cleanAt pc cfg r ∧
    (∀ v : ℤ, r < v → v ≤ 10 → ¬ cleanAt pc cfg v) ∧
    (saturationBackoff pc cfg).printed = [satMessage r] ∧
    (saturationBackoff pc cfg).visited = descRange 10 r := by
  have h := satScanFrom_some pc cfg 10 r hr
  obtain ⟨h1, h2, h3, h4, h5, h6⟩ := h
  simp only [Nat.cast_ofNat] at h2 h4 h6
  exact ⟨h1, h2, h3, h4, h5, h6⟩

/-- C4 witness: a response clean exactly at resultant counts up to 5; the
scan stops at 5, the largest clean level, and 6 is saturated. -/
theorem saturationBackoff_largest_clean_witness :
    cleanAt pcSatAbove5 build_default_calc 5 ∧
    ¬ cleanAt pcSatAbove5 build_default_calc 6 ∧
    (saturationBackoff pcSatAbove5 build_default_calc).printed
      = [satMessage 5] ∧
    (saturationBackoff pcSatAbove5 build_default_calc).visited
      = descRange 10 5 := by
  have hiff : ∀ x : ℤ, cleanAt pcSatAbove5 build_default_calc x ↔ x ≤ 5 := by
    intro x
    show (pcSatAbove5 { build_default_calc with nresultants := x }).psat = none ∧
        (pcSatAbove5 { build_default_calc with nresultants := x }).fsat = none
      ↔ x ≤ 5
    unfold pcSatAbove5
    have hproj : ({ build_default_calc with nresultants := x } : Calc).nresultants
        = x := rfl
    rw [hproj]
    by_cases hx : x ≤ 5
    · rw [if_pos hx]
      simp [cleanReport, hx]
    · rw [if_neg hx]
      simp [satReport, hx]
  have hmono : ∀ a b : ℤ, a ≤ b → cleanAt pcSatAbove5 build_default_calc b →
      cleanAt pcSatAbove5 build_default_calc a := by
    intro a b hab hcb
    have hb := (hiff b).mp hcb
    exact (hiff a).mpr (by omega)
  have hr : (saturationBackoff pcSatAbove5 build_default_calc).nresultant
      = some 5 := by decide
  have h := saturationBackoff_largest_clean pcSatAbove5 build_default_calc
    hmono 5 hr
  exact ⟨h.2.2.1, h.2.2.2.1 6 (by norm_num) (by norm_num), h.2.2.2.2.1,
    h.2.2.2.2.2⟩

/-- C8: when every resultant count from 10 down to 1 carries a
partial-saturation or full-saturation warning, the back-off scan completes
silently: the nresultant variable is never assigned (modelled none),
nothing is printed, and no error is raised (the scan returns normally after
visiting all ten levels). -/
theorem saturationBackoff_all_saturated (pc : PerformCalculation) (cfg : Calc)
    (h : ∀ v : ℤ, 1 ≤ v → v ≤ 10 → ¬ cleanAt pc cfg v) :
    saturationBackoff pc cfg = ⟨none, [], descRange 10 1⟩ := by
  have h2 := satScanFrom_allSat pc cfg 10 (by simp only [Nat.cast_ofNat]; exact h)
  unfold saturationBackoff
  rw [h2]
  simp only [Nat.cast_ofNat]

/-- C8 witness: a response saturated at every level; the scan assigns no
result and prints nothing. -/
theorem saturationBackoff_all_saturated_witness :
    saturationBackoff pcAlwaysSat build_default_calc
      = ⟨none, [], descRange 10 1⟩ := by
  apply saturationBackoff_all_saturated
  intro v h1 h2
  simp [pcAlwaysSat, satReport]

/-- C1 (amended): if the evaluation at exposure count 1 (with the fixed
truncation of 8 resultants) yields an SNR strictly greater than the target,
compute_nexp returns exposure count 1 immediately and performs no further
evaluations: the evaluation trace is the single count-1 configuration and
the search branch never runs.  The original claim's equality case does not
short-circuit (the source tests with strict >): see the counterexample. -/
theorem compute_nexp_shortcircuit (pc : PerformCalculation)
    (ms : MinimizeScalar) (filt : String) (sn mag : ℚ) (bracket : ℚ × ℚ)
    (h : sn < (pc (nexpInitCalc filt mag)).scalar.sn) :
    (compute_nexp pc ms filt sn mag bracket).nexp = 1 ∧
    (compute_nexp pc ms filt sn mag bracket).evalTrace
      = [nexpInitCalc filt mag] ∧
    (compute_nexp pc ms filt sn mag bracket).searched = false := by
  simp only [compute_nexp]
  rw [if_pos h]
  exact ⟨rfl, rfl, rfl⟩

/-- C1 witness: constant SNR 6 strictly above target 5. -/
theorem compute_nexp_shortcircuit_witness :
    (5 : ℚ) < (pcConstSN6 (nexpInitCalc "f129" 25)).scalar.sn ∧
    (compute_nexp pcConstSN6 msConst500 "f129" 5 25 (1, 1000)).nexp = 1 := by
  have h : (5 : ℚ) < (pcConstSN6 (nexpInitCalc "f129" 25)).scalar.sn := by
    show (5 : ℚ) < 6
    norm_num
  exact ⟨h, (compute_nexp_shortcircuit pcConstSN6 msConst500 "f129" 5 25
    (1, 1000) h).1⟩

/-- C1 counterexample: with a scoring function whose SNR at exposure count 1
exactly equals the target (5), compute_nexp does not return 1 and does not
stop after that single evaluation: the search branch runs (here three
external evaluations) and the returned count is the truncated minimizer
solution 500. -/
theorem compute_nexp_shortcircuit_cex :
    (pcConstSN5 (nexpInitCalc "f129" 25)).scalar.sn = 5 ∧
    (compute_nexp pcConstSN5 msConst500 "f129" 5 25 (1, 1000)).nexp = 500 ∧
    (compute_nexp pcConstSN5 msConst500 "f129" 5 25 (1, 1000)).evalTrace.length
      = 3 ∧
    (compute_nexp pcConstSN5 msConst500 "f129" 5 25 (1, 1000)).searched
      = true := by
  refine ⟨rfl, ?_, ?_, ?_⟩
  · rfl
  · rfl
  · rfl

/-- C2 (amended): the returned total exposure time always equals the
total_exposure_time field of the returned result record, and the returned
record is the evaluation at the returned exposure count in the
short-circuit and plain search branches; in the increment branch it is the
evaluation at the returned count minus one, because the source does not
re-evaluate after the +1 correction (see the counterexample for the
original claim). -/
theorem compute_nexp_return_consistency (pc : PerformCalculation)
    (ms : MinimizeScalar) (filt : String) (sn mag : ℚ) (bracket : ℚ × ℚ) :
    (compute_nexp pc ms filt sn mag bracket).exptime
      = (compute_nexp pc ms filt sn mag
          bracket).report.scalar.total_exposure_time ∧
    ((compute_nexp pc ms filt sn mag bracket).incremented = false →
      (compute_nexp pc ms filt sn mag bracket).report
        = pc { nexpInitCalc filt mag with
            nexp := (compute_nexp pc ms filt sn mag bracket).nexp }) ∧
    ((compute_nexp pc ms filt sn mag bracket).incremented = true →
      (compute_nexp pc ms filt sn mag bracket).report
        = pc { nexpInitCalc filt mag with
            nexp := (compute_nexp pc ms filt sn mag bracket).nexp - 1 }) := by
  by_cases h1 : sn < (pc (nexpInitCalc filt mag)).scalar.sn
  · have he : compute_nexp pc ms filt sn mag bracket =
        ⟨1, pc (nexpInitCalc filt mag),
          (pc (nexpInitCalc filt mag)).scalar.total_exposure_time,
          [nexpInitCalc filt mag], false, false⟩ := by
      simp only [compute_nexp]
      rw [if_pos h1]
    rw [he]
    refine ⟨rfl, fun _ => ?_, fun hinc => by simp at hinc⟩
    rfl
  · by_cases h2 : (pc { nexpInitCalc filt mag with
        nexp := pyInt (ms (nexpObjective pc filt sn mag) bracket).x }).scalar.sn
        < sn
    · have he : compute_nexp pc ms filt sn mag bracket =
          ⟨pyInt (ms (nexpObjective pc filt sn mag) bracket).x + 1,
            pc { nexpInitCalc filt mag with
              nexp := pyInt (ms (nexpObjective pc filt sn mag) bracket).x },
            (pc { nexpInitCalc filt mag with
              nexp := pyInt (ms (nexpObjective pc filt sn mag)
                bracket).x }).scalar.total_exposure_time,
            nexpInitCalc filt mag ::
              (ms (nexpObjective pc filt sn mag) bracket).trials.map
                (fun t => { nexpInitCalc filt mag with nexp := pyInt t })
              ++ [{ nexpInitCalc filt mag with
                nexp := pyInt (ms (nexpObjective pc filt sn mag) bracket).x }],
            true, true⟩ := by
        simp only [compute_nexp]
        rw [if_neg h1, if_pos h2]
      rw [he]
      refine ⟨rfl, fun hinc => by simp at hinc, fun _ => ?_⟩
      have h3 : pyInt (ms (nexpObjective pc filt sn mag) bracket).x + 1 - 1
          = pyInt (ms (nexpObjective pc filt sn mag) bracket).x := by ring
      show pc { nexpInitCalc filt mag with
          nexp := pyInt (ms (nexpObjective pc filt sn mag) bracket).x }
        = pc { nexpInitCalc filt mag with
            nexp := pyInt (ms (nexpObjective pc filt sn mag) bracket).x + 1 - 1 }
      rw [h3]
    · have he : compute_nexp pc ms filt sn mag bracket =
          ⟨pyInt (ms (nexpObjective pc filt sn mag) bracket).x,
            pc { nexpInitCalc filt mag with
              nexp := pyInt (ms (nexpObjective pc filt sn mag) bracket).x },
            (pc { nexpInitCalc filt mag with
              nexp := pyInt (ms (nexpObjective pc filt sn mag)
                bracket).x }).scalar.total_exposure_time,
            nexpInitCalc filt mag ::
              (ms (nexpObjective pc filt sn mag) bracket).trials.map
                (fun t => { nexpInitCalc filt mag with nexp := pyInt t })
              ++ [{ nexpInitCalc filt mag with
                nexp := pyInt (ms (nexpObjective pc filt sn mag) bracket).x }],
            true, false⟩ := by
        simp only [compute_nexp]
        rw [if_neg h1, if_neg h2]
      rw [he]
      exact ⟨rfl, fun _ => rfl, fun hinc => by simp at hinc⟩

/-- C2 counterexample: target SNR 10 against a response whose SNR and total
exposure time both equal the exposure count.  The minimizer solution 9 is
taken as the count, the re-evaluated SNR 9 falls short of 10, so the
returned count is 10 — but the returned record and exposure time are those
of the count-9 evaluation (total exposure time 9), not of the count-10
evaluation (10). -/
theorem compute_nexp_return_consistency_cex :
    (compute_nexp pcLinear msConst9 "f129" 10 25 (1, 1000)).nexp = 10 ∧
    (compute_nexp pcLinear msConst9 "f129" 10 25 (1, 1000)).report
      ≠ pcLinear { nexpInitCalc "f129" 25 with nexp := 10 } ∧
    (compute_nexp pcLinear msConst9 "f129" 10 25 (1, 1000)).exptime = 9 ∧
    (pcLinear { nexpInitCalc "f129" 25 with
      nexp := 10 }).scalar.total_exposure_time = 10 := by
  refine ⟨by decide, by decide, by decide, by decide⟩

/-- C3: for a scoring function monotonically increasing in exposure count,
whenever the one-sided +1 correction did not fire, the returned exposure
count's achieved SNR is at least the target SNR; when it did fire, the
count it incremented (the returned count minus one) had SNR strictly below
target — the claim's stated unrechecked exception, the only way a returned
count's SNR can be below target. -/
theorem compute_nexp_meets_target (pc : PerformCalculation)
    (ms : MinimizeScalar) (filt : String) (sn mag : ℚ) (bracket : ℚ × ℚ)
    (hmono : Monotone fun n : ℤ =>
      (pc { nexpInitCalc filt mag with nexp := n }).scalar.sn) :
    ((compute_nexp pc ms filt sn mag bracket).incremented = false →
      sn ≤ (pc { nexpInitCalc filt mag with
        nexp := (compute_nexp pc ms filt sn mag bracket).nexp }).scalar.sn) ∧
    ((compute_nexp pc ms filt sn mag bracket).incremented = true →
      (pc { nexpInitCalc filt mag with
        nexp := (compute_nexp pc ms filt sn mag bracket).nexp
          - 1 }).scalar.sn < sn) := by
  by_cases h1 : sn < (pc (nexpInitCalc filt mag)).scalar.sn
  · have he : compute_nexp pc ms filt sn mag bracket =
        ⟨1, pc (nexpInitCalc filt mag),
          (pc (nexpInitCalc filt mag)).scalar.total_exposure_time,
          [nexpInitCalc filt mag], false, false⟩ := by
      simp only [compute_nexp]
      rw [if_pos h1]
    rw [he]
    refine ⟨fun _ => ?_, fun hinc => by simp at hinc⟩
    exact le_of_lt h1
  · by_cases h2 : (pc { nexpInitCalc filt mag with
        nexp := pyInt (ms (nexpObjective pc filt sn mag) bracket).x }).scalar.sn
        < sn
    · have he : compute_nexp pc ms filt sn mag bracket =
          ⟨pyInt (ms (nexpObjective pc filt sn mag) bracket).x + 1,
            pc { nexpInitCalc filt mag with
              nexp := pyInt (ms (nexpObjective pc filt sn mag) bracket).x },
            (pc { nexpInitCalc filt mag with
              nexp := pyInt (ms (nexpObjective pc filt sn mag)
                bracket).x }).scalar.total_exposure_time,
            nexpInitCalc filt mag ::
              (ms (nexpObjective pc filt sn mag) bracket).trials.map
                (fun t => { nexpInitCalc filt mag with nexp := pyInt t })
              ++ [{ nexpInitCalc filt mag with
                nexp := pyInt (ms (nexpObjective pc filt sn mag) bracket).x }],
            true, true⟩ := by
        simp only [compute_nexp]
        rw [if_neg h1, if_pos h2]
      rw [he]
      refine ⟨fun hinc => by simp at hinc, fun _ => ?_⟩
      have h3 : pyInt (ms (nexpObjective pc filt sn mag) bracket).x + 1 - 1
          = pyInt (ms (nexpObjective pc filt sn mag) bracket).x := by ring
      show (pc { nexpInitCalc filt mag with
          nexp := pyInt (ms (nexpObjective pc filt sn mag) bracket).x + 1
            - 1 }).scalar.sn < sn
      rw [h3]
      exact h2
    · have he : compute_nexp pc ms filt sn mag bracket =
          ⟨pyInt (ms (nexpObjective pc filt sn mag) bracket).x,
            pc { nexpInitCalc filt mag with
              nexp := pyInt (ms (nexpObjective pc filt sn mag) bracket).x },
            (pc { nexpInitCalc filt mag with
              nexp := pyInt (ms (nexpObjective pc filt sn mag)
                bracket).x }).scalar.total_exposure_time,
            nexpInitCalc filt mag ::
              (ms (nexpObjective pc filt sn mag) bracket).trials.map
                (fun t => { nexpInitCalc filt mag with nexp := pyInt t })
              ++ [{ nexpInitCalc filt mag with
                nexp := pyInt (ms (nexpObjective pc filt sn mag) bracket).x }],
            true, false⟩ := by
        simp only [compute_nexp]
        rw [if_neg h1, if_neg h2]
      rw [he]
      exact ⟨fun _ => le_of_not_lt h2, fun hinc => by simp at hinc⟩

/-- C3 witness: pcLinear is monotone in exposure count; with target 10 and
minimizer solution 9 the +1 correction fires, and the count it incremented
(the returned 10 minus one) indeed had SNR 9 below target. -/
theorem compute_nexp_meets_target_witness :
    (compute_nexp pcLinear msConst9 "f129" 10 25 (1, 1000)).incremented
      = true ∧
    (pcLinear { nexpInitCalc "f129" 25 with
      nexp := (compute_nexp pcLinear msConst9 "f129" 10 25
        (1, 1000)).nexp - 1 }).scalar.sn < 10 := by
  have hmono : Monotone fun n : ℤ =>
      (pcLinear { nexpInitCalc "f129" 25 with nexp := n }).scalar.sn := by
    intro a b hab
    show ((a : ℤ) : ℚ) ≤ ((b : ℤ) : ℚ)
    exact_mod_cast hab
  refine ⟨by decide, ?_⟩
  exact (compute_nexp_meets_target pcLinear msConst9 "f129" 10 25 (1, 1000)
    hmono).2 (by decide)

/-- C5 (documenting the code bug): with every achievable SNR capped at 10
— so a target of 20 is infeasible within any bracket — compute_nexp
returns normally with count 501 (the minimizer solution 500 plus the +1
correction) whose achieved SNR, 10, is far below target; nothing in the
returned triple signals infeasibility.  The NexpOutcome type of this
faithful embedding has no error channel because the source raises nothing
and returns the plain triple. -/
theorem compute_nexp_infeasible_returns_normally :
    (compute_nexp pcCap10 msConst500 "f129" 20 25 (1, 1000)).nexp = 501 ∧
    (compute_nexp pcCap10 msConst500 "f129" 20 25 (1, 1000)).report.scalar.sn
      = 10 ∧
    (10 : ℚ) < 20 ∧
    (compute_nexp pcCap10 msConst500 "f129" 20 25 (1, 1000)).incremented
      = true := by
  exact ⟨by decide, by decide, by norm_num, by decide⟩

/-- C9: every configuration compute_nexp passes to the external evaluation
call — the initial count-1 check, every minimizer trial inside _nexp2sn_,
and the final re-evaluation — carries nresultants = 8 and coincides with
the prepared initial configuration on every field except nexp. -/
theorem compute_nexp_frame (pc : PerformCalculation) (ms : MinimizeScalar)
    (filt : String) (sn mag : ℚ) (bracket : ℚ × ℚ) :
    ∀ c ∈ (compute_nexp pc ms filt sn mag bracket).evalTrace,
      c.nresultants = 8 ∧
      c = { nexpInitCalc filt mag with nexp := c.nexp } := by
  have key : ∀ k : ℤ,
      ({ nexpInitCalc filt mag with nexp := k } : Calc).nresultants = 8 ∧
      ({ nexpInitCalc filt mag with nexp := k } : Calc)
        = { nexpInitCalc filt mag with
            nexp := ({ nexpInitCalc filt mag with nexp := k } : Calc).nexp } :=
    fun k => ⟨rfl, rfl⟩
  intro c hc
  by_cases h1 : sn < (pc (nexpInitCalc filt mag)).scalar.sn
  · have he : (compute_nexp pc ms filt sn mag bracket).evalTrace
        = [nexpInitCalc filt mag] := by
      simp only [compute_nexp]
      rw [if_pos h1]
    rw [he] at hc
    have hc2 : c = nexpInitCalc filt mag := by simpa using hc
    rw [hc2]
    exact key 1
  · have he : (compute_nexp pc ms filt sn mag bracket).evalTrace
        = nexpInitCalc filt mag ::
          (ms (nexpObjective pc filt sn mag) bracket).trials.map
            (fun t => { nexpInitCalc filt mag with nexp := pyInt t })
          ++ [{ nexpInitCalc filt mag with
            nexp := pyInt (ms (nexpObjective pc filt sn mag) bracket).x }] := by
      simp only [compute_nexp]
      rw [if_neg h1]
      split_ifs with h2
      · rfl
      · rfl
    rw [he] at hc
    rcases List.mem_cons.mp hc with hceq | hc2
    · rw [hceq]
      exact key 1
    · rcases List.mem_append.mp hc2 with hc3 | hc4
      · rcases List.mem_map.mp hc3 with ⟨t, _, hteq⟩
        rw [← hteq]
        exact key (pyInt t)
      · have hceq : c = { nexpInitCalc filt mag with
            nexp := pyInt (ms (nexpObjective pc filt sn mag) bracket).x } := by
          simpa using hc4
        rw [hceq]
        exact key (pyInt (ms (nexpObjective pc filt sn mag) bracket).x)

/-- C9 witness: in a concrete search-branch run, the initial configuration
is in the evaluation trace and carries nresultants = 8. -/
theorem compute_nexp_frame_witness :
    nexpInitCalc "f129" 25 ∈
      (compute_nexp pcLinear msConst9 "f129" 10 25 (1, 1000)).evalTrace ∧
    (nexpInitCalc "f129" 25).nresultants = 8 := by
  have hmem : nexpInitCalc "f129" 25 ∈
      (compute_nexp pcLinear msConst9 "f129" 10 25 (1, 1000)).evalTrace := by
    decide
  exact ⟨hmem, (compute_nexp_frame pcLinear msConst9 "f129" 10 25 (1, 1000)
    (nexpInitCalc "f129" 25) hmem).1⟩

/-- C10: with a search bracket whose lower bound is 1 and whose minimizer
honors the bounds (its solution lies inside the bracket, the contract of
the bounded method), the returned exposure count is an integer at least 1,
and whenever the search branch ran it is at most one more than the
bracket's upper bound (at most 1001 for the default bracket (1, 1000)). -/
theorem compute_nexp_bounds (pc : PerformCalculation) (ms : MinimizeScalar)
    (filt : String) (sn mag hi : ℚ)
    (hx1 : 1 ≤ (ms (nexpObjective pc filt sn mag) (1, hi)).x)
    (hx2 : (ms (nexpObjective pc filt sn mag) (1, hi)).x ≤ hi) :
    1 ≤ (compute_nexp pc ms filt sn mag (1, hi)).nexp ∧
    ((compute_nexp pc ms filt sn mag (1, hi)).searched = true →
      ((compute_nexp pc ms filt sn mag (1, hi)).nexp : ℚ) ≤ hi + 1) := by
  have h0 : (0 : ℚ) ≤ (ms (nexpObjective pc filt sn mag) (1, hi)).x :=
    le_trans (by norm_num) hx1
  have hpy : pyInt (ms (nexpObjective pc filt sn mag) (1, hi)).x
      = ⌊(ms (nexpObjective pc filt sn mag) (1, hi)).x⌋ := by
    unfold pyInt
    rw [if_pos h0]
  have hm1 : 1 ≤ pyInt (ms (nexpObjective pc filt sn mag) (1, hi)).x := by
    rw [hpy]
    exact Int.le_floor.mpr (by exact_mod_cast hx1)
  have hm2 : ((pyInt (ms (nexpObjective pc filt sn mag) (1, hi)).x : ℤ) : ℚ)
      ≤ hi := by
    rw [hpy]
    exact le_trans (Int.floor_le _) hx2
  by_cases h1 : sn < (pc (nexpInitCalc filt mag)).scalar.sn
  · have he : compute_nexp pc ms filt sn mag (1, hi) =
        ⟨1, pc (nexpInitCalc filt mag),
          (pc (nexpInitCalc filt mag)).scalar.total_exposure_time,
          [nexpInitCalc filt mag], false, false⟩ := by
      simp only [compute_nexp]
      rw [if_pos h1]
    rw [he]
    exact ⟨le_refl 1, fun hs => by simp at hs⟩
  · by_cases h2 : (pc { nexpInitCalc filt mag with
        nexp := pyInt (ms (nexpObjective pc filt sn mag) (1, hi)).x }).scalar.sn
        < sn
    · have he : compute_nexp pc ms filt sn mag (1, hi) =
          ⟨pyInt (ms (nexpObjective pc filt sn mag) (1, hi)).x + 1,
            pc { nexpInitCalc filt mag with
              nexp := pyInt (ms (nexpObjective pc filt sn mag) (1, hi)).x },
            (pc { nexpInitCalc filt mag with
              nexp := pyInt (ms (nexpObjective pc filt sn mag)
                (1, hi)).x }).scalar.total_exposure_time,
            nexpInitCalc filt mag ::
              (ms (nexpObjective pc filt sn mag) (1, hi)).trials.map
                (fun t => { nexpInitCalc filt mag with nexp := pyInt t })
              ++ [{ nexpInitCalc filt mag with
                nexp := pyInt (ms (nexpObjective pc filt sn mag) (1, hi)).x }],
            true, true⟩ := by
        simp only [compute_nexp]
        rw [if_neg h1, if_pos h2]
      rw [he]
      constructor
      · show (1 : ℤ) ≤ pyInt (ms (nexpObjective pc filt sn mag) (1, hi)).x + 1
        omega
      · intro _
        show (((pyInt (ms (nexpObjective pc filt sn mag) (1, hi)).x + 1 : ℤ))
          : ℚ) ≤ hi + 1
        push_cast
        linarith [hm2]
    · have he : compute_nexp pc ms filt sn mag (1, hi) =
          ⟨pyInt (ms (nexpObjective pc filt sn mag) (1, hi)).x,
            pc { nexpInitCalc filt mag with
              nexp := pyInt (ms (nexpObjective pc filt sn mag) (1, hi)).x },
            (pc { nexpInitCalc filt mag with
              nexp := pyInt (ms (nexpObjective pc filt sn mag)
                (1, hi)).x }).scalar.total_exposure_time,
            nexpInitCalc filt mag ::
              (ms (nexpObjective pc filt sn mag) (1, hi)).trials.map
                (fun t => { nexpInitCalc filt mag with nexp := pyInt t })
              ++ [{ nexpInitCalc filt mag with
                nexp := pyInt (ms (nexpObjective pc filt sn mag) (1, hi)).x }],
            true, false⟩ := by
        simp only [compute_nexp]
        rw [if_neg h1, if_neg h2]
      rw [he]
      refine ⟨hm1, fun _ => ?_⟩
      show ((pyInt (ms (nexpObjective pc filt sn mag) (1, hi)).x : ℤ) : ℚ)
        ≤ hi + 1
      linarith [hm2]

/-- C10 witness: bracket (1, 1000) with a bounds-honoring minimizer stub
returning 500; the returned count 501 lies within [1, 1001]. -/
theorem compute_nexp_bounds_witness :
    (1 : ℚ) ≤ (msConst500 (nexpObjective pcCap10 "f129" 20 25) (1, 1000)).x ∧
    1 ≤ (compute_nexp pcCap10 msConst500 "f129" 20 25 (1, 1000)).nexp ∧
    ((compute_nexp pcCap10 msConst500 "f129" 20 25 (1, 1000)).nexp : ℚ)
      ≤ 1000 + 1 := by
  have h := compute_nexp_bounds pcCap10 msConst500 "f129" 20 25 1000
    (by norm_num [msConst500]) (by norm_num [msConst500])
  exact ⟨by norm_num [msConst500], h.1, h.2 (by decide)⟩
